import Mathlib

/-!
Shallow embedding of the core of the CPISync repository
(src/include/CPISync/Aux/SyncMethod.h, src/include/GenSync.h,
src/include/FullSync.h) and proofs about its specification.

Machine-level conventions of the embedding:
* a `shared_ptr<DataObject>` is modelled by `DataPtr`, a pointer address
  (`addr`) together with the pointed-to payload (`content`); the C++
  `operator==` on `shared_ptr` compares stored addresses only, which is
  `sharedPtrEq` below;
* the `double` fields of `SyncStats` are modelled by rationals, and
  `std::chrono` time points by integer microsecond readings of a clock
  supplied as an explicit argument;
* C++ member functions become state-passing Lean functions.
-/

/-- Model of a `shared_ptr<DataObject>`: the address of the managed object
together with the value of the `DataObject` it points to. -/
structure DataPtr where
  addr : Nat
  content : Nat
deriving DecidableEq

/-- Equality of `shared_ptr<DataObject>` as used by `std::remove` in
`SyncMethod::delElem`: two shared pointers compare equal iff they store the
same address, regardless of the pointed-to contents. -/
def sharedPtrEq (p q : DataPtr) : Bool :=
  p.addr == q.addr

/-- Pointwise array update helper used to model assignments into the C
arrays `dataArray` and `startTimeArray`. -/
def updFn {α : Type} (a : Nat → α) (i : Nat) (v : α) : Nat → α :=
  fun j => if j = i then v else a j

/-- The `SyncMethod::SyncStats::StatID` enumeration
(SyncMethod.h line 137). -/
inductive StatID where
  | NONE
  | XMIT
  | RECV
  | COMM_TIME
  | IDLE_TIME
  | COMP_TIME
  | ALL
deriving DecidableEq

/-- The integer value of a `StatID`, as produced by the `static_cast` in
`SyncStats::operator+` (SyncMethod.h lines 144-146). -/
def StatID.toNat : StatID → Nat
  | .NONE => 0
  | .XMIT => 1
  | .RECV => 2
  | .COMM_TIME => 3
  | .IDLE_TIME => 4
  | .COMP_TIME => 5
  | .ALL => 6

/-- The loop indices `(+NONE)+1 .. (+ALL)-1` traversed by every
`for (int ii=(+NONE)+1; ii<(+ALL); ii++)` loop in `SyncStats`. -/
def statIndices : List Nat := [1, 2, 3, 4, 5]

/-- The state of a `SyncMethod::SyncStats` object: the `double dataArray`
and the clock readings stored in `startTimeArray` (SyncMethod.h lines
235-243), with `double` modelled as the rationals and time points as
integer microsecond clock readings. -/
structure SyncStats where
  dataArray : Nat → Rat
  startTimeArray : Nat → Int

/-- The `SyncStats` constructor (SyncMethod.h lines 148-151): entries
`1..5` of `dataArray` are set to `0`; entries `0` and `6` and the whole of
`startTimeArray` stay uninitialised, modelled by the garbage arguments. -/
def SyncStats.mkInit (garbage : Nat → Rat) (tgarbage : Nat → Int) : SyncStats :=
  { dataArray := statIndices.foldl (fun a ii => updFn a ii 0) garbage,
    startTimeArray := tgarbage }

/-- A concrete all-zero `SyncStats` value, used as a sample state. -/
def statsZero : SyncStats :=
  SyncStats.mkInit (fun _ => 0) (fun _ => 0)

/-- `SyncStats::reset` (SyncMethod.h lines 158-168): zeroes one counter,
or counters `1..5` when the argument is `ALL`. -/
def SyncStats.reset (s : SyncStats) (statID : StatID) : SyncStats :=
  if statID ≠ .ALL then
    { s with dataArray := updFn s.dataArray statID.toNat 0 }
  else
    { s with dataArray := statIndices.foldl (fun a ii => updFn a ii 0) s.dataArray }

/-- `SyncStats::getStat` (SyncMethod.h lines 175-177). -/
def SyncStats.getStat (s : SyncStats) (statID : StatID) : Rat :=
  s.dataArray statID.toNat

/-- `SyncStats::increment` (SyncMethod.h lines 184-188): loops over the
indices `1..5`; an index is incremented when it equals the given id or the
id is `ALL`; the byte counters `XMIT` and `RECV` receive `floor(incr)`,
the other counters receive `incr` exactly. -/
def SyncStats.increment (s : SyncStats) (statID : StatID) (incr : Rat) : SyncStats :=
  { s with
    dataArray := statIndices.foldl (fun arr ii =>
      if ii = statID.toNat ∨ statID = .ALL then
        updFn arr ii (arr ii +
          (if ii = StatID.XMIT.toNat ∨ ii = StatID.RECV.toNat
            then ((⌊incr⌋ : Int) : Rat) else incr))
      else arr) s.dataArray }

/-- `SyncStats::timerStart` (SyncMethod.h lines 194-201): records the
current clock reading (`now`, passed explicitly here) into
`startTimeArray` at the given id, or at every index `1..5` for `ALL`. -/
def SyncStats.timerStart (s : SyncStats) (timerID : StatID) (now : Int) : SyncStats :=
  if timerID ≠ .ALL then
    { s with startTimeArray := updFn s.startTimeArray timerID.toNat now }
  else
    { s with startTimeArray := statIndices.foldl (fun a ii => updFn a ii now) s.startTimeArray }

/-- `SyncStats::timerEnd` (SyncMethod.h lines 208-218): adds
`(now - startTimeArray[id])` microseconds, scaled by `1e-6`, to
`dataArray[id]`, or to every index `1..5` for `ALL`. -/
def SyncStats.timerEnd (s : SyncStats) (timerID : StatID) (now : Int) : SyncStats :=
  if timerID ≠ .ALL then
    let elapsed : Rat := ((now - s.startTimeArray timerID.toNat : Int) : Rat) / 1000000
    { s with dataArray := updFn s.dataArray timerID.toNat (s.dataArray timerID.toNat + elapsed) }
  else
    { s with dataArray := statIndices.foldl (fun a ii =>
        updFn a ii (a ii + ((now - s.startTimeArray ii : Int) : Rat) / 1000000)) s.dataArray }

/-- `SyncStats::totalTime` (SyncMethod.h line 223): the sum of the
`COMM_TIME`, `IDLE_TIME` and `COMP_TIME` entries of `dataArray`. -/
def SyncStats.totalTime (s : SyncStats) : Rat :=
  s.dataArray StatID.COMM_TIME.toNat + s.dataArray StatID.IDLE_TIME.toNat
    + s.dataArray StatID.COMP_TIME.toNat

/-- State of a `SyncMethod` object: its element store (`elements`,
SyncMethod.h line 303) and its `mySyncStats` member (line 277). -/
structure SyncMethodState where
  elements : List DataPtr
  mySyncStats : SyncStats

namespace SyncMethod

/-- `SyncMethod::addElem` (SyncMethod.h line 73): `push_back` of the given
shared pointer, always returning `true`. -/
def addElem (s : SyncMethodState) (datum : DataPtr) : SyncMethodState × Bool :=
  ({ s with elements := s.elements ++ [datum] }, true)

/-- `SyncMethod::delElem` (SyncMethod.h lines 80-84): the erase-remove
idiom `elements.erase(std::remove(begin, end, datum), end)` deletes every
stored shared pointer comparing equal (same address) to `datum`,
preserving the order of the rest; the return value is `before > after`
on the store sizes. -/
def delElem (s : SyncMethodState) (datum : DataPtr) : SyncMethodState × Bool :=
  let remaining := s.elements.filter (fun q => !sharedPtrEq q datum)
  ({ s with elements := remaining }, decide (remaining.length < s.elements.length))

/-- `SyncMethod::getNumElem` (SyncMethod.h lines 93-95). -/
def getNumElem (s : SyncMethodState) : Nat :=
  s.elements.length

end SyncMethod

/-- C1 counterexample. The claim says `delElem` removes the first stored
element equal to the datum, at most one occurrence per call; on a store
holding two copies of the same shared pointer, the code's erase-remove
deletes both, so the result is empty rather than the claimed single
remaining copy. -/
theorem delElem_single_removal_false :
    (SyncMethod.delElem { elements := [⟨0, 0⟩, ⟨0, 0⟩], mySyncStats := statsZero }
        ⟨0, 0⟩).1.elements = []
    ∧ (SyncMethod.delElem { elements := [⟨0, 0⟩, ⟨0, 0⟩], mySyncStats := statsZero }
        ⟨0, 0⟩).1.elements ≠ [⟨0, 0⟩] := by
  constructor
  · rfl
  · decide

/-- C1 (amended): `SyncMethod::delElem` removes every stored element
comparing equal (same shared-pointer address) to the datum — not only the
first — keeping exactly the elements that do not compare equal to it, and
returns `true` iff at least one equal occurrence was stored, i.e. iff the
store's size actually decreased. -/
theorem delElem_removes_every_match (s : SyncMethodState) (d : DataPtr) :
    (∀ p : DataPtr,
      p ∈ (SyncMethod.delElem s d).1.elements ↔ p ∈ s.elements ∧ sharedPtrEq p d = false)
    ∧ (SyncMethod.delElem s d).2 = s.elements.any (fun q => sharedPtrEq q d) := by
  constructor
  · intro p
    simp [SyncMethod.delElem, List.mem_filter]
  · simp only [SyncMethod.delElem]
    rcases h : s.elements.any (fun q => sharedPtrEq q d) with _ | _
    · simp only [List.any_eq_false] at h
      have hfilter : s.elements.filter (fun q => !sharedPtrEq q d) = s.elements := by
        apply List.filter_eq_self.mpr
        intro a ha
        simp [h a ha]
      simp [hfilter]
    · simp only [List.any_eq_true] at h
      obtain ⟨a, ha, hpa⟩ := h
      have : (s.elements.filter (fun q => !sharedPtrEq q d)).length < s.elements.length := by
        apply List.length_filter_lt_length_iff_exists.mpr
        exact ⟨a, ha, by simp [hpa]⟩
      simp [this]

/-- C8 counterexample. The claim allows the datum to be present once
(unique multiplicity) before the add; but then `addElem` followed by
`delElem` removes both the new and the pre-existing occurrence, so the
pre-add store `[⟨0,0⟩]` is not restored — the result is `[]`. -/
theorem addDelRoundTrip_unique_multiplicity_false :
    (SyncMethod.delElem
        (SyncMethod.addElem { elements := [⟨0, 0⟩], mySyncStats := statsZero } ⟨0, 0⟩).1
        ⟨0, 0⟩).1.elements = []
    ∧ (SyncMethod.delElem
        (SyncMethod.addElem { elements := [⟨0, 0⟩], mySyncStats := statsZero } ⟨0, 0⟩).1
        ⟨0, 0⟩).1.elements ≠ [⟨0, 0⟩] := by
  constructor
  · rfl
  · decide

/-- C8 (amended): when no stored shared pointer compares equal to the
datum (the datum is absent from the store), `SyncMethod::addElem` followed
by `SyncMethod::delElem` on that datum restores exactly the pre-add store
content, and hence its size. -/
theorem addDelRoundTrip_restores_absent (s : SyncMethodState) (d : DataPtr)
    (habs : ∀ q ∈ s.elements, sharedPtrEq q d = false) :
    (SyncMethod.delElem (SyncMethod.addElem s d).1 d).1.elements = s.elements := by
  simp only [SyncMethod.addElem, SyncMethod.delElem, List.filter_append]
  have h1 : s.elements.filter (fun q => !sharedPtrEq q d) = s.elements := by
    apply List.filter_eq_self.mpr
    intro a ha
    simp [habs a ha]
  have h2 : [d].filter (fun q => !sharedPtrEq q d) = [] := by
    simp [sharedPtrEq]
  simp [h1, h2]

/-- C8 witness: a concrete run of the amended round trip on the store
`[⟨1,5⟩]` with the absent datum `⟨0,5⟩`. -/
theorem addDelRoundTrip_restores_absent_witness :
    (SyncMethod.delElem
        (SyncMethod.addElem { elements := [⟨1, 5⟩], mySyncStats := statsZero } ⟨0, 5⟩).1
        ⟨0, 5⟩).1.elements = [⟨1, 5⟩] :=
  addDelRoundTrip_restores_absent
    { elements := [⟨1, 5⟩], mySyncStats := statsZero } ⟨0, 5⟩ (by decide)

/-- C10: store equality is shared-pointer identity, not value equality:
if the store holds an element `p` whose `DataObject` content equals the
datum's but whose address differs, and no stored pointer shares the
datum's address, then `delElem` leaves `p` in place (indeed leaves the
whole store unchanged) and returns `false`. -/
theorem delElem_pointer_identity (s : SyncMethodState) (d p : DataPtr)
    (hp : p ∈ s.elements) (hcontent : p.content = d.content)
    (haddr : p.addr ≠ d.addr)
    (habs : ∀ q ∈ s.elements, q.addr ≠ d.addr) :
    p ∈ (SyncMethod.delElem s d).1.elements
    ∧ (SyncMethod.delElem s d).1.elements = s.elements
    ∧ (SyncMethod.delElem s d).2 = false := by
  have hfilter : s.elements.filter (fun q => !sharedPtrEq q d) = s.elements := by
    apply List.filter_eq_self.mpr
    intro a ha
    simp [sharedPtrEq, habs a ha]
  refine ⟨?_, ?_, ?_⟩
  · simp [SyncMethod.delElem, hfilter, hp]
  · simp [SyncMethod.delElem, hfilter]
  · simp [SyncMethod.delElem, hfilter]

/-- C10 witness: the store `[⟨1,42⟩]` holds a `DataObject` with the same
content `42` as the datum `⟨2,42⟩` but allocated at a different address;
`delElem` keeps it and returns `false`. -/
theorem delElem_pointer_identity_witness :
    (⟨1, 42⟩ : DataPtr) ∈
      (SyncMethod.delElem { elements := [⟨1, 42⟩], mySyncStats := statsZero } ⟨2, 42⟩).1.elements
    ∧ (SyncMethod.delElem { elements := [⟨1, 42⟩], mySyncStats := statsZero }
        ⟨2, 42⟩).1.elements = [⟨1, 42⟩]
    ∧ (SyncMethod.delElem { elements := [⟨1, 42⟩], mySyncStats := statsZero } ⟨2, 42⟩).2 = false :=
  delElem_pointer_identity { elements := [⟨1, 42⟩], mySyncStats := statsZero } ⟨2, 42⟩ ⟨1, 42⟩
    (by decide) rfl (by decide) (by decide)

/-- Truncation toward zero of a rational, following the specification
words for the byte counters ("the increment is truncated toward zero");
to be compared against the floor the source code applies. -/
def truncateTowardZero (q : Rat) : Int :=
  if 0 ≤ q then ⌊q⌋ else ⌈q⌉

/-- C2 counterexample. At `id = XMIT` and the negative fractional amount
`-3/2`, truncation toward zero would add `-1`, but the code's
`floor(incr)` adds `-2`: floor rounds toward negative infinity, not
toward zero. -/
theorem increment_truncation_counterexample :
    SyncStats.getStat (SyncStats.increment statsZero .XMIT (-(3 / 2))) .XMIT = -2
    ∧ truncateTowardZero (-(3 / 2)) = -1
    ∧ SyncStats.getStat (SyncStats.increment statsZero .XMIT (-(3 / 2))) .XMIT ≠
        SyncStats.getStat statsZero .XMIT + ((truncateTowardZero (-(3 / 2)) : Int) : Rat) := by
  have hfloor : (⌊(-(3 / 2) : Rat)⌋ : Int) = -2 := by norm_num
  have hval : SyncStats.getStat (SyncStats.increment statsZero .XMIT (-(3 / 2))) .XMIT = -2 := by
    simp [SyncStats.increment, SyncStats.getStat, statsZero, SyncStats.mkInit,
      statIndices, updFn, StatID.toNat, hfloor]
  have htrunc : truncateTowardZero (-(3 / 2)) = -1 := by
    rw [truncateTowardZero, if_neg (by norm_num), Int.ceil_neg]
    norm_num
  refine ⟨hval, htrunc, ?_⟩
  rw [hval, htrunc]
  simp [SyncStats.getStat, statsZero, SyncStats.mkInit, statIndices, updFn, StatID.toNat]

/-- C2 (amended): `SyncStats::increment(id, amount)` adds to the counter
named by `id`, or to every counter when `id = ALL` (and to none when
`id = NONE`); the byte counters `XMIT` and `RECV` receive `⌊amount⌋`,
the floor of the amount (rounding toward negative infinity, which agrees
with truncation toward zero only for non-negative amounts), while the
three time counters receive the exact amount; all other counters are
unchanged. -/
theorem increment_adds_floor_to_byte_counters (s : SyncStats) (id tgt : StatID) (incr : Rat) :
    SyncStats.getStat (SyncStats.increment s id incr) tgt =
      SyncStats.getStat s tgt +
        (if (tgt = id ∨ id = .ALL) ∧ tgt ≠ .NONE ∧ tgt ≠ .ALL then
          (if tgt = .XMIT ∨ tgt = .RECV then ((⌊incr⌋ : Int) : Rat) else incr)
        else 0) := by
  cases id <;> cases tgt <;>
    simp [SyncStats.increment, SyncStats.getStat, statIndices, updFn, StatID.toNat]

/-- A single call into the mutating surface of `SyncStats`; timer calls
carry the clock reading observed at that call. -/
inductive StatCall where
  | reset (id : StatID)
  | increment (id : StatID) (amount : Rat)
  | timerStart (id : StatID) (now : Int)
  | timerEnd (id : StatID) (now : Int)

/-- Execution of one `StatCall` on a `SyncStats` state. -/
def execCall (s : SyncStats) : StatCall → SyncStats
  | .reset id => s.reset id
  | .increment id amount => s.increment id amount
  | .timerStart id now => s.timerStart id now
  | .timerEnd id now => s.timerEnd id now

/-- Execution of a sequence of `StatCall`s, first call first. -/
def execCalls (s : SyncStats) (calls : List StatCall) : SyncStats :=
  calls.foldl execCall s

/-- C3: after any sequence of `reset`, `increment`, `timerStart` and
`timerEnd` calls on a freshly constructed `SyncStats` — in particular at
every point of a completed or of an aborted session — `totalTime()`
equals the sum of the `COMM_TIME`, `IDLE_TIME` and `COMP_TIME`
counters: `totalTime` reads exactly those three `dataArray` entries. -/
theorem totalTime_eq_sum_of_time_counters (garbage : Nat → Rat) (tgarbage : Nat → Int)
    (calls : List StatCall) :
    SyncStats.totalTime (execCalls (SyncStats.mkInit garbage tgarbage) calls) =
      SyncStats.getStat (execCalls (SyncStats.mkInit garbage tgarbage) calls) .COMM_TIME
      + SyncStats.getStat (execCalls (SyncStats.mkInit garbage tgarbage) calls) .IDLE_TIME
      + SyncStats.getStat (execCalls (SyncStats.mkInit garbage tgarbage) calls) .COMP_TIME :=
  rfl

/-- Modelled from the spec: the state of a `Communicant` transport as far
as the core consumes it — cumulative byte counters ("report cumulative
bytes sent/received since last reset; reset those counters", spec section
4.1/6) plus unrelated connection state; `Communicant.h` itself is not
under `src/`. -/
structure Communicant where
  xmitBytes : Nat
  recvBytes : Nat
  connState : Nat

/-- Modelled from the spec: `Communicant::resetCommCounters` zeroes the
two cumulative byte counters and nothing else. -/
def Communicant.resetCommCounters (c : Communicant) : Communicant :=
  { c with xmitBytes := 0, recvBytes := 0 }

/-- The full result of a `SyncClient`/`SyncServer` call: the updated
`SyncMethod` state, the updated communicant, the two in-out difference
lists, and the returned boolean. -/
structure SyncResult where
  self : SyncMethodState
  comm : Communicant
  selfMinusOther : List DataPtr
  otherMinusSelf : List DataPtr
  ret : Bool

namespace SyncMethod

/-- `SyncMethod::SyncClient` (SyncMethod.h lines 44-48): resets
`mySyncStats` with `ALL` and the communicant's byte counters, leaves the
two difference lists untouched, and returns `true`. -/
def SyncClient (s : SyncMethodState) (commSync : Communicant)
    (selfMinusOther otherMinusSelf : List DataPtr) : SyncResult :=
  { self := { s with mySyncStats := s.mySyncStats.reset .ALL },
    comm := commSync.resetCommCounters,
    selfMinusOther := selfMinusOther,
    otherMinusSelf := otherMinusSelf,
    ret := true }

/-- `SyncMethod::SyncServer` (SyncMethod.h lines 60-64): identical body
to `SyncClient`. -/
def SyncServer (s : SyncMethodState) (commSync : Communicant)
    (selfMinusOther otherMinusSelf : List DataPtr) : SyncResult :=
  { self := { s with mySyncStats := s.mySyncStats.reset .ALL },
    comm := commSync.resetCommCounters,
    selfMinusOther := selfMinusOther,
    otherMinusSelf := otherMinusSelf,
    ret := true }

end SyncMethod

/-- All five real counters of a `SyncResult`'s strategy stats read zero. -/
def statsAllZero (r : SyncResult) : Prop :=
  SyncStats.getStat r.self.mySyncStats .XMIT = 0
  ∧ SyncStats.getStat r.self.mySyncStats .RECV = 0
  ∧ SyncStats.getStat r.self.mySyncStats .COMM_TIME = 0
  ∧ SyncStats.getStat r.self.mySyncStats .IDLE_TIME = 0
  ∧ SyncStats.getStat r.self.mySyncStats .COMP_TIME = 0

/-- C4: every call to the (base) `SyncMethod::SyncClient` and
`SyncMethod::SyncServer` resets all five of the strategy's stats counters
to zero and resets the peer communicant's byte counters; the two output
lists are returned exactly as passed in, so any pre-existing content is
(trivially) still a prefix of them when the call returns. -/
theorem syncClient_syncServer_reset_and_preserve_lists (s : SyncMethodState)
    (c : Communicant) (smo oms : List DataPtr) :
    (statsAllZero (SyncMethod.SyncClient s c smo oms)
      ∧ (SyncMethod.SyncClient s c smo oms).comm.xmitBytes = 0
      ∧ (SyncMethod.SyncClient s c smo oms).comm.recvBytes = 0
      ∧ (SyncMethod.SyncClient s c smo oms).selfMinusOther = smo
      ∧ (SyncMethod.SyncClient s c smo oms).otherMinusSelf = oms)
    ∧ (statsAllZero (SyncMethod.SyncServer s c smo oms)
      ∧ (SyncMethod.SyncServer s c smo oms).comm.xmitBytes = 0
      ∧ (SyncMethod.SyncServer s c smo oms).comm.recvBytes = 0
      ∧ (SyncMethod.SyncServer s c smo oms).selfMinusOther = smo
      ∧ (SyncMethod.SyncServer s c smo oms).otherMinusSelf = oms) := by
  refine ⟨⟨⟨?_, ?_, ?_, ?_, ?_⟩, rfl, rfl, rfl, rfl⟩, ⟨⟨?_, ?_, ?_, ?_, ?_⟩, rfl, rfl, rfl, rfl⟩⟩ <;>
    simp [SyncMethod.SyncClient, SyncMethod.SyncServer, statsAllZero, SyncStats.reset,
      SyncStats.getStat, statIndices, updFn, StatID.toNat]

namespace SyncMethod

/-- Execution of a scoped-timer region built with
`SyncMethod::TimerWarp` via `SyncMethod::localTimer` (SyncMethod.h lines
249-272): constructing the `TimerWarp` calls `timerStart` on the bound
counter with the entry clock reading `tStart`; the bracketed operation
`body` then runs (its `Bool` component records whether it completed or
failed); and the destructor calls `timerEnd` with the exit clock reading
`tEnd` on every exit path of the region — after success and after failure
alike, exactly once. -/
def scopedTimer (stats : SyncStats) (timerID : StatID) (tStart tEnd : Int)
    (body : SyncStats → SyncStats × Bool) : SyncStats × Bool :=
  let s1 := stats.timerStart timerID tStart
  let r := body s1
  (r.1.timerEnd timerID tEnd, r.2)

end SyncMethod

/-- C5: for every entry into a scoped-timer region bound to one of the
three time counters, on every exit path — the body's failure flag is
arbitrary — the bound counter is increased exactly once relative to the
state the body left behind, by the elapsed duration of the region, and
that duration is non-negative whenever the clock is monotone
(`tStart ≤ tEnd`); the body may mutate any counter but, per the
never-share-a-slot discipline, must leave the bound timer's start slot
alone. -/
theorem scopedTimer_closes_exactly_once (stats : SyncStats) (timerID : StatID)
    (tStart tEnd : Int) (body : SyncStats → SyncStats × Bool)
    (hTime : timerID = .COMM_TIME ∨ timerID = .IDLE_TIME ∨ timerID = .COMP_TIME)
    (hMono : tStart ≤ tEnd)
    (hBody : ∀ s : SyncStats,
      (body s).1.startTimeArray timerID.toNat = s.startTimeArray timerID.toNat) :
    SyncStats.getStat (SyncMethod.scopedTimer stats timerID tStart tEnd body).1 timerID =
      SyncStats.getStat (body (stats.timerStart timerID tStart)).1 timerID
        + ((tEnd - tStart : Int) : Rat) / 1000000
    ∧ 0 ≤ ((tEnd - tStart : Int) : Rat) / 1000000 := by
  have hNotAll : timerID ≠ .ALL := by
    rcases hTime with h | h | h <;> subst h <;> decide
  have hstart : (body (stats.timerStart timerID tStart)).1.startTimeArray timerID.toNat
      = tStart := by
    rw [hBody]
    simp [SyncStats.timerStart, if_pos hNotAll, updFn]
  constructor
  · simp only [SyncMethod.scopedTimer, SyncStats.timerEnd, if_pos hNotAll,
      SyncStats.getStat, updFn, if_pos rfl, hstart, if_true]
  · apply div_nonneg _ (by norm_num)
    have : (0 : Int) ≤ tEnd - tStart := by omega
    exact_mod_cast this

/-- C5 witness: a concrete region bound to `COMM_TIME` entered at clock
reading `0` and left at `1000000` whose body fails (flag `false`) after
incrementing a different counter; the hypotheses are discharged at these
values. -/
theorem scopedTimer_closes_exactly_once_witness :
    SyncStats.getStat
        (SyncMethod.scopedTimer statsZero .COMM_TIME 0 1000000
          (fun s => (s.increment .COMP_TIME 7, false))).1 .COMM_TIME =
      SyncStats.getStat
          ((fun s => (s.increment .COMP_TIME 7, false))
            (statsZero.timerStart .COMM_TIME 0)).1 .COMM_TIME
        + (((1000000 : Int) - (0 : Int) : Int) : Rat) / 1000000
    ∧ 0 ≤ (((1000000 : Int) - (0 : Int) : Int) : Rat) / 1000000 :=
  scopedTimer_closes_exactly_once statsZero .COMM_TIME 0 1000000
    (fun s => (s.increment .COMP_TIME 7, false)) (Or.inl rfl) (by norm_num)
    (fun s => by
      simp [SyncStats.increment, statIndices, updFn, StatID.toNat])

namespace SyncMethod

/-- `SyncMethod::postProcessing_SET` (SyncMethod.h lines 104-111): for a
store container of type `T` with member add and delete hooks, iterates
over `otherMinusSelf` invoking the add hook on each element; `myData` and
the delete hook are received but never used. -/
def postProcessing_SET {T : Type} (otherMinusSelf myData : List DataPtr)
    (add : T → DataPtr → T) (del : T → DataPtr → T × Bool) (pGenSync : T) : T :=
  otherMinusSelf.foldl (fun g elem => add g elem) pGenSync

end SyncMethod

/-- C6: instantiated with a store that records every invocation of its
add hook (a trace list that `add` appends to), `postProcessing_SET`
extends the trace by exactly `otherMinusSelf`: the add hook is invoked
exactly once per element of `otherMinusSelf`, in list order, for any
`myData`, any delete hook and any starting store; in particular every
item of `otherMinusSelf` has been handed to the add hook when it
returns. -/
theorem postProcessing_SET_adds_each_once_in_order (oms md trace : List DataPtr)
    (del : List DataPtr → DataPtr → List DataPtr × Bool) :
    SyncMethod.postProcessing_SET oms md (fun g elem => g ++ [elem]) del trace = trace ++ oms
    ∧ ∀ elem ∈ oms,
        elem ∈ SyncMethod.postProcessing_SET oms md (fun g elem => g ++ [elem]) del trace := by
  have key : ∀ (l acc : List DataPtr),
      List.foldl (fun g elem => g ++ [elem]) acc l = acc ++ l := by
    intro l
    induction l with
    | nil => intro acc; simp
    | cons x xs ih =>
      intro acc
      simp [List.foldl_cons, ih]
  constructor
  · exact key oms trace
  · intro elem helem
    rw [SyncMethod.postProcessing_SET, key oms trace]
    exact List.mem_append_right trace helem

/-- State of a `GenSync` object (GenSync.h lines 244-255): the element
container `myData`, the registered communicants `myCommVec` and the
registered synchronization methods `mySyncVec` (communicants and methods
referenced here by identifier); the backing output file is outside this
embedding. -/
structure GenSyncState where
  myData : List DataPtr
  myCommVec : List Nat
  mySyncVec : List Nat

namespace GenSync

/-- Modelled from the spec: the body of `GenSync::startSync` is not under
`src/` (GenSync.h lines 185-192 only declare it). Per the spec, for each
registered communicant in registration order it initiates a client-role
session with the strategy at the given index, an individual failure does
not abort the loop, and the return value is the logical AND of all
individual outcomes. The outcome of the session with each communicant is
abstracted by `sessionResult`; the second component returned is the
ordered list of communicants with which a session was attempted. -/
def startSync (g : GenSyncState) (syncNum : Nat) (sessionResult : Nat → Nat → Bool) :
    Bool × List Nat :=
  g.myCommVec.foldl
    (fun acc c => (acc.1 && sessionResult syncNum c, acc.2 ++ [c])) (true, [])

/-- Modelled from the spec: `GenSync::delElem` is declared in GenSync.h
lines 93-98 as "Not currently implemented" / `@unimplemented`, with no
body under `src/`; the spec documents it as unsupported — callers must
not rely on it removing anything — so it leaves the `GenSync` state
unchanged. -/
def delElem (g : GenSyncState) (datum : DataPtr) : GenSyncState :=
  g

/-- Modelled from the spec: `GenSync::dumpElements` (declared at
GenSync.h lines 100-103, body not under `src/`) returns the ordered list
of pointers to the stored elements. -/
def dumpElements (g : GenSyncState) : List DataPtr :=
  g.myData

end GenSync

/-- C7: `startSync` attempts a client-role session with every registered
communicant, in registration order — an individual session's failure
never prevents the sessions with the subsequent communicants from being
attempted — and returns the logical AND of the individual outcomes:
`true` iff every session succeeded. -/
theorem startSync_attempts_all_aggregates_and (g : GenSyncState) (syncNum : Nat)
    (sessionResult : Nat → Nat → Bool) :
    (GenSync.startSync g syncNum sessionResult).2 = g.myCommVec
    ∧ ((GenSync.startSync g syncNum sessionResult).1 =
        g.myCommVec.all (fun c => sessionResult syncNum c)) := by
  have key : ∀ (l : List Nat) (b : Bool) (tr : List Nat),
      l.foldl (fun acc c => (acc.1 && sessionResult syncNum c, acc.2 ++ [c])) (b, tr)
        = (b && l.all (fun c => sessionResult syncNum c), tr ++ l) := by
    intro l
    induction l with
    | nil => intro b tr; simp
    | cons x xs ih =>
      intro b tr
      simp [List.foldl_cons, ih, Bool.and_assoc]
  rw [GenSync.startSync, key g.myCommVec true []]
  simp

/-- C9: `GenSync::delElem` never mutates the element collection — the
sequence returned by `dumpElements` immediately after the call equals the
one returned immediately before it, for every state and every input
datum. -/
theorem delElem_preserves_dumpElements (g : GenSyncState) (datum : DataPtr) :
    GenSync.dumpElements (GenSync.delElem g datum) = GenSync.dumpElements g :=
  rfl
